import Mathlib

/-!
# Verification of the jUnit XML upload command (datadog-ci, `src/commands/junit`)

Shallow embedding of `src/src/commands/junit/renderer.ts` (the renderer file
concatenated with the upload command file).  External collaborators (the axios
transport, the `async-retry` library's control flow, Node's `path` module,
`glob`, the filesystem) are modelled at their interface boundary exactly as the
command's code consumes them.
-/

namespace JUnitUpload

/-- A JavaScript error as observed by the command's catch blocks: an axios
error carries `error.response.status` (`status = some s`); a transport-level
failure that never got a response has no `response` field (`status = none`). -/
structure JsError where
  status : Option Nat
  message : String
  deriving DecidableEq, Repr

/-- `const errorCodesNoRetry = [400, 403, 413]` -/
def errorCodesNoRetry : List Nat := [400, 403, 413]

/-- `const errorCodesStopUpload = [400, 403]` -/
def errorCodesStopUpload : List Nat := [400, 403]

/-- Outcome of one execution of the async callback passed to `retry`:
it either returns normally (`resolved`), throws the error so that the attempt
is retried (`thrown`), or calls `bail(error)` (`bailed`). -/
inductive InnerOutcome where
  | resolved
  | thrown (e : JsError)
  | bailed (e : JsError)
  deriving DecidableEq, Repr

/-- The body of the `retry` callback in `uploadJUnitXML`.  `result` is the
outcome of `api.uploadJUnitXML` on this attempt (`none` = the promise
resolved, `some e` = it rejected with `e`).  Under dry-run the network call is
skipped and the callback returns after printing the dry-run line.

Source:
```
if (this.dryRun) { ...; return }
await api.uploadJUnitXML(...)
} catch (error) {
  if (error.response) {
    if (!errorCodesNoRetry.includes(error.response.status)) { throw error }
  }
  bail(error)
  return
}
``` -/
def innerAttempt (dryRun : Bool) (result : Option JsError) : InnerOutcome :=
  if dryRun then .resolved
  else
    match result with
    | none => .resolved
    | some e =>
      match e.status with
      | some s => if s ∉ errorCodesNoRetry then .thrown e else .bailed e
      | none => .bailed e

/-- A retry notice emitted by `onRetry`: the attempt number that failed and
the error message (`renderRetriedUpload(jUnitXML, e.message, attempt)`). -/
structure RetryNotice where
  attempt : Nat
  message : String
  deriving DecidableEq, Repr

/-- Semantics of the `async-retry` library as configured (`retries: 5`,
`onRetry`), over a stream `res` of per-attempt transport results (attempts are
1-indexed).  Returns the settled result of the `retry(...)` promise, the list
of retry notices in emission order, and the number of attempts performed.
A `thrown` error consumes one unit of retry budget (`fuel`) and emits a notice
for the failed attempt before re-attempting; a `bailed` error rejects the
promise immediately; exhausting the budget rejects with the last error. -/
def asyncRetryGo (dryRun : Bool) (res : Nat → Option JsError) :
    Nat → Nat → Except JsError Unit × List RetryNotice × Nat
  | attempt, fuel =>
    match innerAttempt dryRun (res attempt) with
    | .resolved => (.ok (), [], 1)
    | .bailed e => (.error e, [], 1)
    | .thrown e =>
      match fuel with
      | 0 => (.error e, [], 1)
      | fuel' + 1 =>
        let rest := asyncRetryGo dryRun res (attempt + 1) fuel'
        (rest.1, ⟨attempt, e.message⟩ :: rest.2.1, rest.2.2 + 1)

/-- Terminal outcome of `uploadJUnitXML` for one payload: the method returns
normally after a successful upload (`success`), returns normally after
printing a failed-upload line (`skip`, the batch continues), or re-throws the
error to the orchestrator (`abort`). -/
inductive UploadOutcome where
  | success
  | skip (e : JsError)
  | abort (e : JsError)
  deriving DecidableEq, Repr

/-- `UploadJUnitXMLCommand.uploadJUnitXML`: the retry loop wrapped in the
outer try/catch.

Source of the outer catch:
```
} catch (error) {
  this.context.stdout.write(renderFailedUpload(jUnitXML, error))
  if (error.response) {
    if (!errorCodesStopUpload.includes(error.response.status)) { return }
  }
  throw error
}
``` -/
def uploadJUnitXML (dryRun : Bool) (res : Nat → Option JsError) :
    UploadOutcome × List RetryNotice × Nat :=
  let r := asyncRetryGo dryRun res 1 5
  match r.1 with
  | .ok _ => (.success, r.2)
  | .error e =>
    match e.status with
    | some s => if s ∉ errorCodesStopUpload then (.skip e, r.2) else (.abort e, r.2)
    | none => (.abort e, r.2)

/-! ## Validation (`validateXml`) -/

/-- Outcome of reading and parsing an XML file, as the command observes it
through `fast-xml-parser` (an external collaborator): either
`xmlParser.validate` rejects the content with an error message
(`validationOutput.err.msg`), or the content parses and the parsed JSON
object's `testsuites` / `testsuite` root fields are truthy or not. -/
inductive XmlParseOutcome where
  | invalid (errMsg : String)
  | parsed (testsuites testsuite : Bool)
  deriving DecidableEq, Repr

/-- `validateXml` from the command file, over the abstract reader `read`
(`fs.readFileSync` composed with the parser):
```
const validationOutput = xmlParser.validate(xmlFileContentString)
if (validationOutput !== true) { return validationOutput.err.msg }
const xmlFileJSON = xmlParser.parse(String(xmlFileContentString))
if (!xmlFileJSON.testsuites && !xmlFileJSON.testsuite) {
  return 'Neither <testsuites> nor <testsuite> are the root tag.'
}
return undefined
``` -/
def validateXml (read : String → XmlParseOutcome) (xmlFilePath : String) : Option String :=
  match read xmlFilePath with
  | .invalid msg => some msg
  | .parsed ts t =>
    if !ts && !t then some "Neither <testsuites> nor <testsuite> are the root tag."
    else none

/-! ## Path handling (`path.extname`, discovery, dedup) -/

/-- Last `/`-separated component of a (posix-normalized) path, as
`path.posix` sees it. -/
def basename (p : String) : String :=
  ⟨(p.toList.reverse.takeWhile (fun c => c ≠ '/')).reverse⟩

/-- Index of the last `.` in a list of characters, if any. -/
def lastDotIdx : List Char → Option Nat
  | [] => none
  | c :: cs =>
    match lastDotIdx cs with
    | some i => some (i + 1)
    | none => if c = '.' then some 0 else none

/-- Node's `path.extname` on a normalized posix path: the substring of the
basename from its last `.`, except that a leading dot (dotfiles) and the
special basename `..` yield the empty extension. -/
def extname (p : String) : String :=
  let b := basename p
  match lastDotIdx b.toList with
  | none => ""
  | some 0 => ""
  | some i => if b = ".." then "" else ⟨b.toList.drop i⟩

/-- Contribution of one base path to the candidate list, from
`getMatchingJUnitXMLFiles`:
```
const isFile = !!path.extname(basePath)
if (isFile) { return acc.concat(fs.existsSync(basePath) ? [basePath] : []) }
return acc.concat(glob.sync(buildPath(basePath, '*.xml')))
```
`fsExists` models `fs.existsSync`; `globXml basePath` models
`glob.sync(buildPath(basePath, '*.xml'))` (non-recursive `*.xml` match
directly inside `basePath`). -/
def baseContribution (fsExists : String → Bool) (globXml : String → List String)
    (basePath : String) : List String :=
  if extname basePath ≠ "" then (if fsExists basePath then [basePath] else [])
  else globXml basePath

/-- The `reduce` over base paths building `jUnitXMLFiles`. -/
def jUnitXMLFiles (fsExists : String → Bool) (globXml : String → List String)
    (basePaths : List String) : List String :=
  basePaths.foldl (fun acc basePath => acc ++ baseContribution fsExists globXml basePath) []

/-- `[...new Set(files)]`: JavaScript `Set` keeps the first occurrence of
each element, in insertion order. -/
def jsSetDedup : List String → List String
  | [] => []
  | x :: xs => x :: jsSetDedup (xs.filter (fun y => y ≠ x))
termination_by l => l.length
decreasing_by
  simp only [List.length_cons]
  exact Nat.lt_succ_of_le (List.length_filter_le _ _)

/-- JavaScript truthiness of the validation result: the filter keeps a file
when `validateXml` returns `undefined` (and also when it would return the
empty string, which is falsy). -/
def messageTruthy : Option String → Bool
  | none => false
  | some s => s != ""

/-- `validUniqueFiles` from `getMatchingJUnitXMLFiles`: dedupe, then drop the
files whose validation produces a (truthy) error message, printing an
invalid-file line for each. -/
def validUniqueFiles (read : String → XmlParseOutcome) (fsExists : String → Bool)
    (globXml : String → List String) (basePaths : List String) : List String :=
  (jsSetDedup (jUnitXMLFiles fsExists globXml basePaths)).filter
    (fun p => !(messageTruthy (validateXml read p)))

/-! ## Span tags merge -/

/-- A JavaScript object with string values, viewed as a partial map. -/
def JsObj : Type := String → Option String

/-- Object spread `{...a, ...b}`: keys of `b` overwrite keys of `a`. -/
def objectSpread (a b : JsObj) : JsObj :=
  fun k =>
    match b k with
    | some v => some v
    | none => a k

/-- `...(this.config.env ? {env: this.config.env} : {})`: the explicit env
override object, present only when `config.env` is truthy (a nonempty
string). -/
def envOverride (cfgEnv : Option String) : JsObj :=
  fun k =>
    match cfgEnv with
    | some e => if e ≠ "" ∧ k = "env" then some e else none
    | none => none

/-- The merged `spanTags` object:
```
const spanTags = {
  ...gitSpanTags, ...ciSpanTags, ...cliTags, ...envVarTags,
  ...(this.config.env ? {env: this.config.env} : {}),
}
```
`gitSpanTags` (`getGitMetadata`), `ciSpanTags` (`getCISpanTags`), `cliTags`
(`parseTags(this.tags)`) and `envVarTags` (`parseTags(DD_TAGS.split(','))`)
are external collaborators, taken as abstract objects. -/
def mergedSpanTags (gitSpanTags ciSpanTags cliTags envVarTags : JsObj)
    (cfgEnv : Option String) : JsObj :=
  objectSpread
    (objectSpread (objectSpread (objectSpread gitSpanTags ciSpanTags) cliTags) envVarTags)
    (envOverride cfgEnv)

/-- `Payload` from `interfaces.ts` as the command constructs it. -/
structure Payload where
  service : String
  spanTags : JsObj
  xmlPath : String

/-- `getMatchingJUnitXMLFiles`: one `Payload` per valid unique file, all
sharing `service` and the merged `spanTags`. -/
def getMatchingJUnitXMLFiles (read : String → XmlParseOutcome) (fsExists : String → Bool)
    (globXml : String → List String) (gitSpanTags ciSpanTags cliTags envVarTags : JsObj)
    (cfgEnv : Option String) (service : String) (basePaths : List String) : List Payload :=
  (validUniqueFiles read fsExists globXml basePaths).map
    (fun p =>
      { service := service
        spanTags := mergedSpanTags gitSpanTags ciSpanTags cliTags envVarTags cfgEnv
        xmlPath := p })

/-! ## Batch run and reported count (`execute`) -/

/-- Sequential refinement of `await asyncPool(this.maxConcurrency, payloads,
upload)` in `execute`, adequate for the settled result: the awaited pool
promise resolves when every `uploadJUnitXML` returned, and rejects with the
error of a payload whose `uploadJUnitXML` re-threw (an `abort`).
`res p` is the per-attempt transport result stream for payload path `p`. -/
def runUploadsSeq (dryRun : Bool) (res : String → Nat → Option JsError) :
    List String → Except JsError Unit
  | [] => .ok ()
  | p :: rest =>
    match (uploadJUnitXML dryRun (res p)).1 with
    | .abort e => .error e
    | _ => runUploadsSeq dryRun res rest

/-- The count `execute` reports on completion:
`renderSuccessfulCommand(payloads.length, totalTimeSeconds)` — the length of
the scheduled payload list.  If the pool rejects, the error propagates and no
summary is written. -/
def executeBatchCount (dryRun : Bool) (res : String → Nat → Option JsError)
    (paths : List String) : Except JsError Nat :=
  match runUploadsSeq dryRun res paths with
  | .ok _ => .ok paths.length
  | .error e => .error e

/-- Number of payloads whose upload completed successfully. -/
def countSuccessfulUploads (dryRun : Bool) (res : String → Nat → Option JsError)
    (paths : List String) : Nat :=
  (paths.filter (fun p =>
    match (uploadJUnitXML dryRun (res p)).1 with
    | .success => true
    | _ => false)).length

/-! ## Bounded worker pool -/

/-- Modelled from the spec: the bounded-concurrency pool driving the batch is
the `tiny-async-pool` dependency, whose code is not part of this repository;
per §4.5/§5 it is "a classic bounded worker pool": never more than
`concurrency` uploads in flight, a new upload starts as soon as a slot
frees.  A pool state: payloads not yet started, payloads in flight, payloads
finished. -/
structure PoolState where
  pending : List String
  inFlight : List String
  done : List String

/-- Modelled from the spec: one scheduling event of the pool.  A pending
payload may start only while fewer than `limit` uploads are in flight; any
in-flight upload may finish at any time (first-finished, not first-started). -/
inductive PoolStep (limit : Nat) : PoolState → PoolState → Prop where
  | start (p : String) (rest inflight done : List String) :
      inflight.length < limit →
      PoolStep limit ⟨p :: rest, inflight, done⟩ ⟨rest, p :: inflight, done⟩
  | finish (p : String) (pending pre post done : List String) :
      PoolStep limit ⟨pending, pre ++ p :: post, done⟩ ⟨pending, pre ++ post, p :: done⟩

/-- Reachability under pool scheduling events. -/
inductive PoolReachable (limit : Nat) (init : PoolState) : PoolState → Prop where
  | refl : PoolReachable limit init init
  | step {s t : PoolState} : PoolReachable limit init s → PoolStep limit s t →
      PoolReachable limit init t

/-- The pool's initial state on a batch: every payload pending. -/
def initPool (payloads : List String) : PoolState :=
  { pending := payloads, inFlight := [], done := [] }

/-! ## Configuration: env resolution (`execute`) -/

/-- JavaScript truthiness of an optional string (`undefined` and `''` are
falsy). -/
def jsTruthyStr : Option String → Bool
  | none => false
  | some s => s != ""

/-- Resolution of `config.env` in `execute`: `config.env` is initialized to
`process.env.DD_ENV`, then
```
if (!this.config.env) { this.config.env = this.env }
```
where `this.env` is the `--env` option. -/
def resolveConfigEnv (ddEnv cliEnv : Option String) : Option String :=
  if jsTruthyStr ddEnv then ddEnv else cliEnv

/-! ## Helper lemmas -/

theorem foldl_append_eq_flatMap (f : String → List String) (l : List String) :
    ∀ init : List String, l.foldl (fun acc bp => acc ++ f bp) init = init ++ l.flatMap f := by
  induction l with
  | nil => intro init; simp
  | cons x xs ih => intro init; simp [List.foldl_cons, ih, List.append_assoc]

theorem jUnitXMLFiles_eq_flatMap (ex : String → Bool) (gl : String → List String)
    (basePaths : List String) :
    jUnitXMLFiles ex gl basePaths = basePaths.flatMap (baseContribution ex gl) := by
  simpa [jUnitXMLFiles] using foldl_append_eq_flatMap (baseContribution ex gl) basePaths []

theorem mem_jsSetDedup (a : String) : ∀ l : List String, a ∈ jsSetDedup l ↔ a ∈ l := by
  intro l
  induction l using jsSetDedup.induct with
  | case1 => simp [jsSetDedup]
  | case2 x xs ih =>
    rw [jsSetDedup]
    simp only [List.mem_cons, ih, List.mem_filter]
    by_cases hax : a = x
    · simp [hax]
    · simp [hax]

theorem nodup_jsSetDedup : ∀ l : List String, (jsSetDedup l).Nodup := by
  intro l
  induction l using jsSetDedup.induct with
  | case1 => simp [jsSetDedup]
  | case2 x xs ih =>
    rw [jsSetDedup]
    refine List.nodup_cons.mpr ⟨?_, ih⟩
    intro hx
    have := (mem_jsSetDedup x _).mp hx
    simp [List.mem_filter] at this

theorem scheduledPaths_eq (read : String → XmlParseOutcome) (ex : String → Bool)
    (gl : String → List String) (git ci cli envv : JsObj) (cfgEnv : Option String)
    (service : String) (basePaths : List String) :
    (getMatchingJUnitXMLFiles read ex gl git ci cli envv cfgEnv service basePaths).map
        Payload.xmlPath =
      validUniqueFiles read ex gl basePaths := by
  simp only [getMatchingJUnitXMLFiles, List.map_map, Function.comp_def]
  simp

theorem mem_validUniqueFiles (read : String → XmlParseOutcome) (ex : String → Bool)
    (gl : String → List String) (basePaths : List String) (p : String) :
    p ∈ validUniqueFiles read ex gl basePaths ↔
      p ∈ jUnitXMLFiles ex gl basePaths ∧ messageTruthy (validateXml read p) = false := by
  simp [validUniqueFiles, List.mem_filter, mem_jsSetDedup]

theorem poolReachable_inFlight_le (limit : Nat) (payloads : List String) (s : PoolState)
    (h : PoolReachable limit (initPool payloads) s) : s.inFlight.length ≤ limit := by
  induction h with
  | refl => simp [initPool]
  | step hr hstep ih =>
    cases hstep with
    | start p rest inflight done hlt => simpa using hlt
    | finish p pending pre post done =>
      simp [List.length_append] at ih ⊢
      omega

/-! ## Claim theorems -/

/-- C1, counterexample.  The claim says the reported `uploadedCount` equals
the number of payloads whose upload completed successfully and excludes
upload-skipped payloads.  On the code, `execute` reports `payloads.length`:
with a single payload that exhausts its retry budget on status 500 (an
upload-skipped payload), the batch completes and reports 1, while 0 uploads
completed successfully. -/
theorem reportedCount_includes_skipped_cex :
    executeBatchCount false (fun _ _ => some ⟨some 500, "Internal Server Error"⟩)
        ["report.xml"] = .ok 1 ∧
    countSuccessfulUploads false (fun _ _ => some ⟨some 500, "Internal Server Error"⟩)
        ["report.xml"] = 0 :=
  ⟨rfl, rfl⟩

/-- C1, amended.  For every batch run that completes, the final count
reported by `execute` equals the number of payloads scheduled (the valid
unique files): invalid-skipped files are excluded (they were never
scheduled), but upload-skipped payloads are included.  Under dry-run the
reported count does equal the number of would-upload successes. -/
theorem reportedCount_eq_scheduled (dryRun : Bool) (res : String → Nat → Option JsError)
    (paths : List String) (h : runUploadsSeq dryRun res paths = .ok ()) :
    executeBatchCount dryRun res paths = .ok paths.length ∧
    (dryRun = true → countSuccessfulUploads dryRun res paths = paths.length) := by
  constructor
  · simp [executeBatchCount, h]
  · rintro rfl
    simp [countSuccessfulUploads, uploadJUnitXML, asyncRetryGo, innerAttempt]

/-- C1, witness: a completing dry-run batch of two payloads reports 2. -/
theorem reportedCount_eq_scheduled_witness :
    executeBatchCount true (fun _ _ => none) ["a.xml", "b.xml"] = .ok 2 ∧
    (true = true → countSuccessfulUploads true (fun _ _ => none) ["a.xml", "b.xml"] = 2) :=
  reportedCount_eq_scheduled true (fun _ _ => none) ["a.xml", "b.xml"] rfl

/-- C2, counterexample.  The claim says a transport failure with no status
code is classified retryable, retried up to the budget, and on exhaustion
ends in Skip.  On the code, an error without a `response` field falls
through the `if (error.response)` guard to `bail(error)` on the very first
attempt (one attempt, no retry notices), and the outer catch — whose
`return` path also requires `error.response` — re-throws it: the outcome is
`abort`, never `skip`. -/
theorem noStatus_error_not_retried_cex :
    uploadJUnitXML false (fun _ => some ⟨none, "ECONNRESET"⟩) =
      (.abort ⟨none, "ECONNRESET"⟩, [], 1) ∧
    ∀ e, (uploadJUnitXML false (fun _ => some ⟨none, "ECONNRESET"⟩)).1 ≠ UploadOutcome.skip e := by
  refine ⟨rfl, ?_⟩
  intro e h
  have : UploadOutcome.abort ⟨none, "ECONNRESET"⟩ = UploadOutcome.skip e := h
  simp at this

/-- C2, amended.  For every upload whose first attempt fails with a
transport failure carrying no status code, the error is bailed immediately
(exactly one attempt, no retries, no retry notices) and the payload's
terminal outcome is Abort: the error propagates out of `uploadJUnitXML` and
aborts the batch. -/
theorem noStatus_error_immediate_abort (res : Nat → Option JsError) (msg : String)
    (h : res 1 = some ⟨none, msg⟩) :
    uploadJUnitXML false res = (.abort ⟨none, msg⟩, [], 1) ∧
    executeBatchCount false (fun _ => res) ["report.xml"] = .error ⟨none, msg⟩ := by
  constructor
  · simp [uploadJUnitXML, asyncRetryGo, innerAttempt, h]
  · simp [executeBatchCount, runUploadsSeq, uploadJUnitXML, asyncRetryGo, innerAttempt, h]

/-- C2, witness: a concrete connection-level failure. -/
theorem noStatus_error_immediate_abort_witness :
    uploadJUnitXML false (fun _ => some ⟨none, "ECONNREFUSED"⟩) =
      (.abort ⟨none, "ECONNREFUSED"⟩, [], 1) ∧
    executeBatchCount false (fun _ => fun _ => some ⟨none, "ECONNREFUSED"⟩) ["report.xml"] =
      .error ⟨none, "ECONNREFUSED"⟩ :=
  noStatus_error_immediate_abort (fun _ => some ⟨none, "ECONNREFUSED"⟩) "ECONNREFUSED" rfl

/-- C3.  For every upload failure carrying a status code in
`errorCodesNoRetry = [400, 403, 413]`, no retry is performed (no retry
notices, exactly one attempt, with the full budget of 5 retries remaining);
a terminal 400 or 403 aborts the batch (the error propagates out of the
batch run), while a terminal 413 is a per-file Skip and the batch continues
with the remaining payloads. -/
theorem fatalCodes_never_retried (res : Nat → Option JsError) (s : Nat) (msg : String)
    (rest : List String) (hs : s ∈ errorCodesNoRetry) (h1 : res 1 = some ⟨some s, msg⟩) :
    (uploadJUnitXML false res).2.1 = [] ∧
    (uploadJUnitXML false res).2.2 = 1 ∧
    ((s = 400 ∨ s = 403) → (uploadJUnitXML false res).1 = .abort ⟨some s, msg⟩) ∧
    (s = 413 → (uploadJUnitXML false res).1 = .skip ⟨some s, msg⟩) ∧
    ((s = 400 ∨ s = 403) →
      executeBatchCount false (fun _ => res) ["report.xml"] = .error ⟨some s, msg⟩) ∧
    (s = 413 → runUploadsSeq false (fun _ => res) ("report.xml" :: rest) =
      runUploadsSeq false (fun _ => res) rest) := by
  simp only [errorCodesNoRetry, List.mem_cons, List.mem_singleton, List.not_mem_nil,
    or_false] at hs
  rcases hs with rfl | rfl | rfl <;>
    simp [uploadJUnitXML, asyncRetryGo, innerAttempt, h1, errorCodesNoRetry,
      errorCodesStopUpload, executeBatchCount, runUploadsSeq]

/-- C3, witness: a 413 failure is not retried, is a Skip, and the batch
continues with the remaining payloads. -/
theorem fatalCodes_never_retried_witness :
    (uploadJUnitXML false (fun _ => some ⟨some 413, "Payload Too Large"⟩)).2.1 = [] ∧
    (uploadJUnitXML false (fun _ => some ⟨some 413, "Payload Too Large"⟩)).2.2 = 1 ∧
    ((413 = 400 ∨ 413 = 403) →
      (uploadJUnitXML false (fun _ => some ⟨some 413, "Payload Too Large"⟩)).1 =
        .abort ⟨some 413, "Payload Too Large"⟩) ∧
    (413 = 413 →
      (uploadJUnitXML false (fun _ => some ⟨some 413, "Payload Too Large"⟩)).1 =
        .skip ⟨some 413, "Payload Too Large"⟩) ∧
    ((413 = 400 ∨ 413 = 403) →
      executeBatchCount false (fun _ => fun _ => some ⟨some 413, "Payload Too Large"⟩)
        ["report.xml"] = .error ⟨some 413, "Payload Too Large"⟩) ∧
    (413 = 413 →
      runUploadsSeq false (fun _ => fun _ => some ⟨some 413, "Payload Too Large"⟩)
        ("report.xml" :: ["other.xml"]) =
      runUploadsSeq false (fun _ => fun _ => some ⟨some 413, "Payload Too Large"⟩)
        ["other.xml"]) :=
  fatalCodes_never_retried (fun _ => some ⟨some 413, "Payload Too Large"⟩) 413
    "Payload Too Large" ["other.xml"] (by decide) rfl

/-- C4.  A payload whose upload fails with status 500 on every attempt is
attempted exactly 6 times (1 initial + 5 retries, `retries: 5`); a retry
notice carrying the failed attempt number and the error message is emitted
for attempts 1 through 5, in order, before each retry; the terminal outcome
is Skip (reported, not fatal), and it is excluded from the count of
successful uploads. -/
theorem always500_six_attempts_then_skip (msg : String) :
    uploadJUnitXML false (fun _ => some ⟨some 500, msg⟩) =
      (.skip ⟨some 500, msg⟩, [⟨1, msg⟩, ⟨2, msg⟩, ⟨3, msg⟩, ⟨4, msg⟩, ⟨5, msg⟩], 6) ∧
    countSuccessfulUploads false (fun _ _ => some ⟨some 500, msg⟩) ["report.xml"] = 0 :=
  ⟨rfl, rfl⟩

/-- C5, counterexample.  The claim says the `env` key is present in the
merged `spanTags` only when an explicit env value is set.  On the code, any
lower-precedence source may define `env`: with CLI `--tags env:staging` and
no explicit env (`config.env` unset, so the override object contributes
nothing), the merged mapping still carries `env = staging`. -/
theorem envKey_without_explicit_env_cex :
    mergedSpanTags (fun _ => none) (fun _ => none)
      (fun k => if k = "env" then some "staging" else none) (fun _ => none) none "env" =
      some "staging" ∧
    envOverride none "env" = none :=
  ⟨rfl, rfl⟩

/-- C5, amended.  For every key of the merged `spanTags`, the final value
comes from the highest-precedence source defining it (explicit env override
> env-var tag list > CLI tags > CI tags > VCS git tags); colliding keys are
overwritten, never an error; a nonempty explicit env always wins for the
`env` key; but the explicit-env override is only one source of the `env`
key — lower-precedence sources may also supply it when no override is set. -/
theorem mergedSpanTags_precedence (git ci cli envv : JsObj) (cfgEnv : Option String)
    (k : String) :
    (∀ v, envOverride cfgEnv k = some v →
      mergedSpanTags git ci cli envv cfgEnv k = some v) ∧
    (envOverride cfgEnv k = none → ∀ v, envv k = some v →
      mergedSpanTags git ci cli envv cfgEnv k = some v) ∧
    (envOverride cfgEnv k = none → envv k = none → ∀ v, cli k = some v →
      mergedSpanTags git ci cli envv cfgEnv k = some v) ∧
    (envOverride cfgEnv k = none → envv k = none → cli k = none → ∀ v, ci k = some v →
      mergedSpanTags git ci cli envv cfgEnv k = some v) ∧
    (envOverride cfgEnv k = none → envv k = none → cli k = none → ci k = none →
      mergedSpanTags git ci cli envv cfgEnv k = git k) ∧
    (∀ e, cfgEnv = some e → e ≠ "" →
      mergedSpanTags git ci cli envv cfgEnv "env" = some e) := by
  refine ⟨?_, ?_, ?_, ?_, ?_, ?_⟩ <;>
    intros <;> simp_all [mergedSpanTags, objectSpread, envOverride]

/-- C6.  The scheduled payloads are exactly the unique resolved candidate
paths minus those failing validation: their path list has no duplicates; a
path is scheduled iff it is a resolved candidate (a file-classified base
path that exists, or a directory glob result) whose validation produced no
(truthy) error message; duplicated input base paths yield the same scheduled
set; and a file-classified base path that does not exist on disk (and is not
produced by any directory glob) is silently dropped. -/
theorem scheduled_payloads_unique_valid (read : String → XmlParseOutcome)
    (ex : String → Bool) (gl : String → List String) (git ci cli envv : JsObj)
    (cfgEnv : Option String) (service : String) (basePaths : List String) :
    ((getMatchingJUnitXMLFiles read ex gl git ci cli envv cfgEnv service basePaths).map
        Payload.xmlPath).Nodup ∧
    (∀ p, p ∈ (getMatchingJUnitXMLFiles read ex gl git ci cli envv cfgEnv service
          basePaths).map Payload.xmlPath ↔
        p ∈ jUnitXMLFiles ex gl basePaths ∧ messageTruthy (validateXml read p) = false) ∧
    (∀ p, p ∈ (getMatchingJUnitXMLFiles read ex gl git ci cli envv cfgEnv service
          (basePaths ++ basePaths)).map Payload.xmlPath ↔
        p ∈ (getMatchingJUnitXMLFiles read ex gl git ci cli envv cfgEnv service
          basePaths).map Payload.xmlPath) ∧
    (∀ bp, extname bp ≠ "" → ex bp = false → (∀ b, bp ∉ gl b) →
      bp ∉ (getMatchingJUnitXMLFiles read ex gl git ci cli envv cfgEnv service
        basePaths).map Payload.xmlPath) := by
  refine ⟨?_, ?_, ?_, ?_⟩
  · rw [scheduledPaths_eq]
    exact (nodup_jsSetDedup _).filter _
  · intro p
    rw [scheduledPaths_eq]
    exact mem_validUniqueFiles read ex gl basePaths p
  · intro p
    rw [scheduledPaths_eq, scheduledPaths_eq, mem_validUniqueFiles, mem_validUniqueFiles,
      jUnitXMLFiles_eq_flatMap, jUnitXMLFiles_eq_flatMap]
    simp [List.mem_flatMap, or_and_right]
  · intro bp hext hex hgl hmem
    rw [scheduledPaths_eq, mem_validUniqueFiles, jUnitXMLFiles_eq_flatMap] at hmem
    simp only [List.mem_flatMap] at hmem
    obtain ⟨⟨b, hb, hbc⟩, -⟩ := hmem
    by_cases hbext : extname b = ""
    · exact hgl b (by simpa [baseContribution, hbext] using hbc)
    · by_cases hbex : ex b = true
      · have : bp = b := by simpa [baseContribution, hbext, hbex] using hbc
        subst this
        simp [hbex] at hex
      · simp [baseContribution, hbext, hbex] at hbc

/-- C7.  `validateXml` succeeds (returns `undefined`) iff the content parses
as well-formed XML and the parsed root has a truthy `testsuites` or
`testsuite` field; on parse failure it returns the parser's message
verbatim; on structural failure it returns the fixed message naming the two
accepted root tags. -/
theorem validateXml_root_spec (read : String → XmlParseOutcome) (p : String) :
    (validateXml read p = none ↔
      ∃ ts t, read p = .parsed ts t ∧ (ts = true ∨ t = true)) ∧
    (∀ msg, read p = .invalid msg → validateXml read p = some msg) ∧
    (∀ ts t, read p = .parsed ts t → ts = false → t = false →
      validateXml read p = some "Neither <testsuites> nor <testsuite> are the root tag.") := by
  refine ⟨?_, ?_, ?_⟩
  · cases h : read p with
    | invalid msg => simp [validateXml, h]
    | parsed ts t => cases ts <;> cases t <;> simp [validateXml, h]
  · intro msg h
    simp [validateXml, h]
  · intro ts t h hts ht
    subst hts; subst ht
    simp [validateXml, h]

/-- C8.  In every pool state reachable from a batch's initial state, at most
`limit` uploads are in flight; and whenever a payload is still pending and a
slot is free, starting that payload is an enabled scheduling event (the pool
starts new work as soon as a slot frees; the `finish` event can retire any
in-flight upload, so scheduling is first-finished, not first-started). -/
theorem pool_concurrency_invariant (limit : Nat) (payloads : List String) (s : PoolState)
    (p : String) (rest : List String) (h : PoolReachable limit (initPool payloads) s) :
    s.inFlight.length ≤ limit ∧
    (s.pending = p :: rest → s.inFlight.length < limit →
      PoolStep limit s ⟨rest, p :: s.inFlight, s.done⟩) := by
  refine ⟨poolReachable_inFlight_le limit payloads s h, ?_⟩
  intro hp hlt
  obtain ⟨pend, infl, done⟩ := s
  cases hp
  exact PoolStep.start p rest infl done hlt

/-- C8, witness: the initial state of a three-payload batch under
concurrency 2. -/
theorem pool_concurrency_invariant_witness :
    (initPool ["a.xml", "b.xml", "c.xml"]).inFlight.length ≤ 2 ∧
    ((initPool ["a.xml", "b.xml", "c.xml"]).pending = "a.xml" :: ["b.xml", "c.xml"] →
      (initPool ["a.xml", "b.xml", "c.xml"]).inFlight.length < 2 →
      PoolStep 2 (initPool ["a.xml", "b.xml", "c.xml"])
        ⟨["b.xml", "c.xml"], "a.xml" :: (initPool ["a.xml", "b.xml", "c.xml"]).inFlight,
          (initPool ["a.xml", "b.xml", "c.xml"]).done⟩) :=
  pool_concurrency_invariant 2 ["a.xml", "b.xml", "c.xml"] (initPool ["a.xml", "b.xml", "c.xml"])
    "a.xml" ["b.xml", "c.xml"] PoolReachable.refl

/-- C9.  When `DD_ENV` is set (to a nonempty value) it is the explicit env
override, regardless of `--env`; the `--env` option value is used only when
`DD_ENV` is unset. -/
theorem ddEnv_overrides_cli_env (dd cli : String) (hdd : dd ≠ "") :
    resolveConfigEnv (some dd) (some cli) = some dd ∧
    resolveConfigEnv none (some cli) = some cli := by
  constructor
  · simp [resolveConfigEnv, jsTruthyStr, hdd]
  · simp [resolveConfigEnv, jsTruthyStr]

/-- C9, witness. -/
theorem ddEnv_overrides_cli_env_witness :
    resolveConfigEnv (some "prod") (some "dev") = some "prod" ∧
    resolveConfigEnv none (some "dev") = some "dev" :=
  ddEnv_overrides_cli_env "prod" "dev" (by decide)

/-- C10.  A base path contributes itself as a single candidate file iff its
`extname` is nonempty and it exists on disk; a base path with empty
`extname` is always expanded through the directory glob (an existing
extensionless file is never included as itself), and a base path with a
nonempty `extname` is never glob-expanded even if it names a directory. -/
theorem basePath_file_iff_extension (ex : String → Bool) (gl : String → List String)
    (bp : String) (hg : bp ∉ gl bp) :
    (bp ∈ jUnitXMLFiles ex gl [bp] ↔ extname bp ≠ "" ∧ ex bp = true) ∧
    (extname bp = "" → jUnitXMLFiles ex gl [bp] = gl bp) ∧
    (extname bp ≠ "" → jUnitXMLFiles ex gl [bp] = if ex bp then [bp] else []) := by
  have h1 : jUnitXMLFiles ex gl [bp] = baseContribution ex gl bp := by
    simp [jUnitXMLFiles_eq_flatMap]
  by_cases hext : extname bp = ""
  · refine ⟨?_, fun _ => ?_, fun hc => absurd hext hc⟩
    · rw [h1]
      simp [baseContribution, hext, hg]
    · rw [h1]
      simp [baseContribution, hext]
  · refine ⟨?_, fun hc => absurd hc hext, fun _ => ?_⟩
    · rw [h1]
      cases hex : ex bp <;> simp [baseContribution, hext, hex]
    · rw [h1]
      simp [baseContribution, hext]

/-- C10, witness: the extensionless path `reports` is glob-expanded, not
taken as a candidate file, even though it exists. -/
theorem basePath_file_iff_extension_witness :
    ("reports" ∈ jUnitXMLFiles (fun _ => true) (fun _ => ["reports/a.xml"]) ["reports"] ↔
      extname "reports" ≠ "" ∧ (fun (_ : String) => true) "reports" = true) ∧
    (extname "reports" = "" →
      jUnitXMLFiles (fun _ => true) (fun _ => ["reports/a.xml"]) ["reports"] =
        ["reports/a.xml"]) ∧
    (extname "reports" ≠ "" →
      jUnitXMLFiles (fun _ => true) (fun _ => ["reports/a.xml"]) ["reports"] =
        if (fun (_ : String) => true) "reports" then ["reports"] else []) :=
  basePath_file_iff_extension (fun _ => true) (fun _ => ["reports/a.xml"]) "reports" (by decide)

end JUnitUpload
